import Mathlib

/-!
Verification of the chord-graph state-transition and animation-sequencing
engine of the JASS-APP repository.

The definitions below are a shallow embedding of:
* `parseChord` (chordNotes module) and the chord colour resolver
  (`chordColors` module: `ROOT_COLORS`, `FLAT_TO_SHARP`, `normalizeRoot`,
  `DEFAULT_COLORS`, `getChordColor`);
* the slot geometry table and the transition resolver of
  `ChordGraph.tsx` (the MAX_HISTORY = 5 variant: `SLOT_POSITIONS`,
  `getAbsPos`, `promotedFrom`, `promotedInitialPosition`,
  `demotedFromCenter`, `getPrevAnimateFrom`, `allNodes`);
* the graph state store of the page module
  (`transformToChordGraphState` and the merge reducer passed to
  `setChordGraphState` inside the chord-message handler).

JavaScript features are modelled as follows: `Date.now()` is passed in
explicitly as a `now : Nat` parameter; a nullable value is an `Option`;
JS string truthiness is `s ≠ ""`; `Array.prototype.findIndex` returning
`-1` is `Option Nat`; numbers that matter (tension, probability, the
55 / 32 scale) are rationals.
-/

namespace JassApp

/-- A chord node: `{ id, chordId, probability? }` from `types/chord.ts`.
`id` is a per-appearance instance identifier; `chordId` is the chord
name; `probability` is present only on suggestion nodes. -/
structure ChordNode where
  id : String
  chordId : String
  probability : Option ℚ
deriving DecidableEq, Repr

/-- `ChordGraphState` from `types/chord.ts`:
`{ current, previous[], next[] }`. -/
structure ChordGraphState where
  current : ChordNode
  previous : List ChordNode
  next : List ChordNode
deriving DecidableEq, Repr

/-! ## Chord parsing (`parseChord` in the chordNotes module) -/

/-- The regex class `[A-G]`. -/
def isNoteLetter (c : Char) : Bool := 'A' ≤ c && c ≤ 'G'

/-- Root/rest split implemented by the regex `^([A-G][#b]?)(.*)`:
`none` when the string does not start with a note letter. -/
def parseChordChars : List Char → Option (List Char × List Char)
  | [] => none
  | c :: rest =>
    if isNoteLetter c then
      match rest with
      | m :: rest2 =>
        if m = '#' || m = 'b' then some ([c, m], rest2) else some ([c], rest)
      | [] => some ([c], [])
    else none

/-- Result of `parseChord`: a root and the remaining quality text. -/
structure ParsedChord where
  root : String
  rest : String
deriving DecidableEq, Repr

/-- `parseChord` from the chordNotes module: match `^([A-G][#b]?)(.*)`;
on no match, fall back to `{ root: 'C', suffix: '' }`. -/
def parseChord (chordId : String) : ParsedChord :=
  match parseChordChars chordId.toList with
  | none => ⟨"C", ""⟩
  | some (r, s) => ⟨String.mk r, String.mk s⟩

/-! ## Chord colour resolver (`chordColors` module) -/

/-- The four colour tokens of a chord's visual identity. -/
structure ChordColorSet where
  base : String
  deep : String
  light : String
  text : String
deriving DecidableEq, Repr

/-- `ROOT_COLORS`: the 12-entry root-to-colour table. -/
def ROOT_COLORS (root : String) : Option ChordColorSet :=
  if root = "C" then some ⟨"#dda0d0", "#c080b0", "#f6e4f4", "#6a2860"⟩
  else if root = "C#" then some ⟨"#c89ce8", "#a878d0", "#ecd8f8", "#502868"⟩
  else if root = "D" then some ⟨"#a8a8f0", "#8484d8", "#dcdcfa", "#383078"⟩
  else if root = "D#" then some ⟨"#90b8f0", "#6c98d8", "#d4e4fa", "#284070"⟩
  else if root = "E" then some ⟨"#88cce8", "#60acd0", "#d0eef8", "#205060"⟩
  else if root = "F" then some ⟨"#80d4cc", "#58b8b0", "#ccf0ec", "#185850"⟩
  else if root = "F#" then some ⟨"#8cdcac", "#64c488", "#d0f4e0", "#1c5838"⟩
  else if root = "G" then some ⟨"#a4d898", "#80c070", "#dcf2d4", "#2c5020"⟩
  else if root = "G#" then some ⟨"#c8d48c", "#a8b868", "#eef0d0", "#444c18"⟩
  else if root = "A" then some ⟨"#e8c88c", "#d0a860", "#f8ecd4", "#5c4418"⟩
  else if root = "A#" then some ⟨"#f0b090", "#d89068", "#fae4d4", "#643420"⟩
  else if root = "B" then some ⟨"#eca0a8", "#d47c88", "#f8dce0", "#682830"⟩
  else none

/-- `FLAT_TO_SHARP`: flat spellings mapped to their sharp equivalents. -/
def FLAT_TO_SHARP (root : String) : Option String :=
  if root = "Db" then some "C#"
  else if root = "Eb" then some "D#"
  else if root = "Fb" then some "E"
  else if root = "Gb" then some "F#"
  else if root = "Ab" then some "G#"
  else if root = "Bb" then some "A#"
  else if root = "Cb" then some "B"
  else none

/-- `normalizeRoot`: `FLAT_TO_SHARP[root] ?? root`. -/
def normalizeRoot (root : String) : String :=
  (FLAT_TO_SHARP root).getD root

/-- `DEFAULT_COLORS` from the chordColors module. -/
def DEFAULT_COLORS : ChordColorSet :=
  ⟨"#ccc0d4", "#a898b0", "#e8e0f0", "#504060"⟩

/-- `getChordColor`: look the parsed, normalised root up in `ROOT_COLORS`,
falling back to `DEFAULT_COLORS` (`?? DEFAULT_COLORS`). -/
def getChordColor (chordId : String) : ChordColorSet :=
  (ROOT_COLORS (normalizeRoot (parseChord chordId).root)).getD DEFAULT_COLORS

/-! ## Slot geometry (`ChordGraph.tsx`, MAX_HISTORY = 5 variant) -/

/-- Symbolic slot names: `'center'`, `` `prev-${i}` `` and
`` `next-${i}` ``.  The source builds these as template strings, so an
out-of-table index such as `prev-7` is representable, exactly as in the
code. -/
inductive SlotId where
  | center : SlotId
  | prev : ℕ → SlotId
  | next : ℕ → SlotId
deriving DecidableEq, Repr

/-- A 2D point; every coordinate in the slot table is an integer. -/
structure Pos where
  x : ℤ
  y : ℤ
deriving DecidableEq, Repr

def VIEWBOX_W : ℤ := 1200

def CENTER : Pos := ⟨VIEWBOX_W / 2, 280⟩

def MAX_HISTORY : ℕ := 5

/-- `SLOT_POSITIONS`: offsets from `CENTER`; `none` models a key that is
absent from the record. -/
def SLOT_POSITIONS : SlotId → Option Pos
  | .center => some ⟨0, 0⟩
  | .prev 0 => some ⟨-280, -180⟩
  | .prev 1 => some ⟨-140, -220⟩
  | .prev 2 => some ⟨0, -240⟩
  | .prev 3 => some ⟨140, -220⟩
  | .prev 4 => some ⟨280, -180⟩
  | .next 0 => some ⟨-360, 360⟩
  | .next 1 => some ⟨0, 360⟩
  | .next 2 => some ⟨360, 360⟩
  | _ => none

/-- `getAbsPos`: `SLOT_POSITIONS[slot] ?? {x:0,y:0}`, added to `CENTER`. -/
def getAbsPos (slot : SlotId) : Pos :=
  let offset := (SLOT_POSITIONS slot).getD ⟨0, 0⟩
  ⟨CENTER.x + offset.x, CENTER.y + offset.y⟩

/-- Node roles as in the `role` prop of `ChordNodeComponent`. -/
inductive Role where
  | current : Role
  | previous : Role
  | next : Role
deriving DecidableEq, Repr

/-- Sphere radii from `ROLE_CONFIG` in the ChordNode module:
current 55, next 40, previous 32. -/
def roleRadius : Role → ℚ
  | .current => 55
  | .next => 40
  | .previous => 32

/-! ## Transition resolver (`ChordGraph` component body) -/

/-- `promotedFrom`:
```
previousState && current.chordId !== previousState.current.chordId &&
previousState.next.some(n => n.chordId === current.chordId)
  ? previousState.next.findIndex(n => n.chordId === current.chordId)
  : -1
```
The `-1` sentinel is modelled as `none`. -/
def promotedFrom (st : ChordGraphState) : Option ChordGraphState → Option ℕ
  | none => none
  | some ps =>
    if st.current.chordId ≠ ps.current.chordId ∧
        ps.next.any (fun n => n.chordId == st.current.chordId) = true then
      some (ps.next.findIdx (fun n => n.chordId == st.current.chordId))
    else none

/-- `promotedInitialPosition`:
`promotedFrom >= 0 ? getAbsPos(next-promotedFrom) : undefined`. -/
def promotedInitialPosition (st : ChordGraphState)
    (ps? : Option ChordGraphState) : Option Pos :=
  (promotedFrom st ps?).map (fun i => getAbsPos (SlotId.next i))

/-- `demotedFromCenter`:
`previousState && previous.length > 0 &&
 previous[0].chordId === previousState.current.chordId`. -/
def demotedFromCenter (st : ChordGraphState) : Option ChordGraphState → Bool
  | none => false
  | some ps =>
    match st.previous with
    | [] => false
    | p0 :: _ => p0.chordId == ps.current.chordId

/-- `getPrevAnimateFrom(i, chordId)`:
```
if (i === 0 && demotedFromCenter) return { pos: centerPos, scale: 55 / 32 };
const wasAtIndex = previousState?.previous?.findIndex(n => n.chordId === chordId) ?? -1;
if (wasAtIndex >= 0 && wasAtIndex !== i)
  return { pos: getAbsPos(prev-wasAtIndex), scale: undefined };
return { pos: undefined, scale: undefined };
``` -/
def getPrevAnimateFrom (st : ChordGraphState) (ps? : Option ChordGraphState)
    (i : ℕ) (chordId : String) : Option Pos × Option ℚ :=
  if i = 0 ∧ demotedFromCenter st ps? = true then
    (some (getAbsPos SlotId.center), some (55 / 32))
  else
    match ps? with
    | none => (none, none)
    | some ps =>
      if ps.previous.any (fun n => n.chordId == chordId) = true then
        let wasAtIndex := ps.previous.findIdx (fun n => n.chordId == chordId)
        if wasAtIndex ≠ i then
          (some (getAbsPos (SlotId.prev wasAtIndex)), none)
        else (none, none)
      else (none, none)

/-- One entry of the `allNodes` array: the node, its resting slot, its
role, and the per-node animation-origin directives handed to
`ChordNodeComponent`. -/
structure RenderNode where
  node : ChordNode
  slot : SlotId
  role : Role
  animateFromPosition : Option Pos
  animateFromScale : Option ℚ
deriving DecidableEq, Repr

/-- The effective scale at which a node's entry animation starts:
`ChordNodeComponent` uses `(animateFromScale ?? 1) * targetScale` with
the default `depthScale = 1`, so an absent directive means scale 1. -/
def initialScale (r : RenderNode) : ℚ := r.animateFromScale.getD 1

/-- The previous-role segment of `allNodes`:
`previous.slice(0, MAX_HISTORY).map((node, i) => ...)`, carried out with
an explicit running index. -/
def buildPrevNodes (st : ChordGraphState) (ps? : Option ChordGraphState) :
    ℕ → List ChordNode → List RenderNode
  | _, [] => []
  | k, n :: rest =>
    { node := n, slot := SlotId.prev k, role := Role.previous,
      animateFromPosition := (getPrevAnimateFrom st ps? k n.chordId).1,
      animateFromScale := (getPrevAnimateFrom st ps? k n.chordId).2 }
      :: buildPrevNodes st ps? (k + 1) rest

/-- The next-role segment of `allNodes`:
`next.map((node, i) => ...)`, with no animation directives. -/
def buildNextNodes : ℕ → List ChordNode → List RenderNode
  | _, [] => []
  | k, n :: rest =>
    { node := n, slot := SlotId.next k, role := Role.next,
      animateFromPosition := none, animateFromScale := none }
      :: buildNextNodes (k + 1) rest

/-- `allNodes`: truncated previous entries, then the current entry
(with `promotedInitialPosition` and no scale), then the next entries. -/
def allNodes (st : ChordGraphState) (ps? : Option ChordGraphState) :
    List RenderNode :=
  buildPrevNodes st ps? 0 (st.previous.take MAX_HISTORY)
    ++ [{ node := st.current, slot := SlotId.center, role := Role.current,
          animateFromPosition := promotedInitialPosition st ps?,
          animateFromScale := none }]
    ++ buildNextNodes 0 st.next

/-! ## Graph state store (page module) -/

/-- The `chord` field of an inbound chord message (`chroma` is unused by
the state-transition logic and omitted). -/
structure ChordInfo where
  name : Option String
  notes : List String
deriving DecidableEq, Repr

/-- One entry of the `suggestions` array of a chord message. -/
structure Suggestion where
  name : String
  notes : List String
  tension : ℚ
deriving DecidableEq, Repr

/-- An inbound `type: "chord"` WebSocket message. -/
structure ChordMsg where
  chord : ChordInfo
  suggestions : List Suggestion
deriving DecidableEq, Repr

/-- The suggestion-to-next mapping inside `transformToChordGraphState`:
`suggestions.slice(0, 3).map((s, i) => ({ id: next-i-now, chordId:
s.name, probability: 1 - s.tension / maxTension }))`. -/
def buildNextSuggestions (now : ℕ) (maxTension : ℚ) :
    ℕ → List Suggestion → List ChordNode
  | _, [] => []
  | i, s :: rest =>
    { id := "next-" ++ toString i ++ "-" ++ toString now, chordId := s.name,
      probability := some (1 - s.tension / maxTension) }
      :: buildNextSuggestions now maxTension (i + 1) rest

/-- `transformToChordGraphState`: `null` when the chord name is absent
(JS falsy covers both `null` and the empty string); otherwise a fresh
current node, an empty previous list, and up to three suggestion nodes.
`maxTension` is `Math.max(...tensions, 0.01)`. -/
def transformToChordGraphState (msg : ChordMsg) (now : ℕ) :
    Option ChordGraphState :=
  match msg.chord.name with
  | none => none
  | some name =>
    if name = "" then none
    else
      let current : ChordNode :=
        ⟨"current-" ++ toString now, name, none⟩
      let maxTension : ℚ :=
        (msg.suggestions.map (fun s => s.tension)).foldl max (1 / 100)
      some { current := current, previous := [],
             next := buildNextSuggestions now maxTension 0 (msg.suggestions.take 3) }

/-- The merge reducer passed to `setChordGraphState` in the chord branch
of `ws.onmessage`:
```
(prev) => {
  if (!prev) return baseState;
  const chordChanged = baseState.current.chordId && prev.current.chordId
    && baseState.current.chordId !== prev.current.chordId;
  const newPrevious = chordChanged
    ? [{ id: prev-now, chordId: prev.current.chordId }, ...prev.previous].slice(0, 5)
    : prev.previous;
  return { ...baseState, previous: newPrevious };
}
```
JS truthiness of a string is "≠ empty". -/
def mergeChordGraphState (prev? : Option ChordGraphState)
    (base : ChordGraphState) (now : ℕ) : ChordGraphState :=
  match prev? with
  | none => base
  | some prev =>
    let chordChanged :=
      base.current.chordId ≠ "" ∧ prev.current.chordId ≠ "" ∧
        base.current.chordId ≠ prev.current.chordId
    let newPrevious :=
      if chordChanged then
        ({ id := "prev-" ++ toString now, chordId := prev.current.chordId,
           probability := none } :: prev.previous).take 5
      else prev.previous
    { current := base.current, previous := newPrevious, next := base.next }

/-- The whole `type: "chord"` message branch as a state update: when
`transformToChordGraphState` yields `null`, or demo mode is active, the
`if (baseState && !demoModeRef.current)` guard skips the update and the
held state is left as it is; otherwise the merge reducer runs. -/
def handleChordMsg (st? : Option ChordGraphState) (msg : ChordMsg)
    (now : ℕ) (demoMode : Bool) : Option ChordGraphState :=
  match transformToChordGraphState msg now with
  | none => st?
  | some base =>
    if demoMode then st? else some (mergeChordGraphState st? base now)

/-- A sequence of live chord messages (each with its `Date.now()` value)
applied through the store, starting from the absent state. -/
def runChordMsgs (msgs : List (ChordMsg × ℕ)) : Option ChordGraphState :=
  msgs.foldl (fun st m => handleChordMsg st m.1 m.2 false) none

/-! ## Concrete example states used by witnesses and counterexamples -/

/-- Snapshot: current C, history [Am], suggestions [G7, Dm7]. -/
def demoPs : ChordGraphState :=
  ⟨⟨"c0", "C", none⟩, [⟨"p0", "Am", none⟩], [⟨"n0", "G7", none⟩, ⟨"n1", "Dm7", none⟩]⟩

/-- New state after C → F: C was demoted into `previous[0]`. -/
def demoSt : ChordGraphState :=
  ⟨⟨"c1", "F", none⟩, [⟨"q0", "C", none⟩, ⟨"q1", "Am", none⟩], []⟩

/-- The `prev-0` render entry produced for `demoSt` against `demoPs`. -/
def demoPrev0 : RenderNode :=
  { node := ⟨"q0", "C", none⟩, slot := SlotId.prev 0, role := Role.previous,
    animateFromPosition := some (getAbsPos SlotId.center),
    animateFromScale := some (55 / 32) }

/-- Snapshot for the shift scenario: history [Am, Em]. -/
def shiftPs : ChordGraphState :=
  ⟨⟨"c0", "C", none⟩, [⟨"p0", "Am", none⟩, ⟨"p1", "Em", none⟩], []⟩

/-- New state: history [C, Am, Em]; Am moved from `prev-0` to `prev-1`. -/
def shiftSt : ChordGraphState :=
  ⟨⟨"c1", "F", none⟩, [⟨"q0", "C", none⟩, ⟨"q1", "Am", none⟩, ⟨"q2", "Em", none⟩], []⟩

/-- The `prev-1` render entry produced for `shiftSt` against `shiftPs`. -/
def shiftPrev1 : RenderNode :=
  { node := ⟨"q1", "Am", none⟩, slot := SlotId.prev 1, role := Role.previous,
    animateFromPosition := some (getAbsPos (SlotId.prev 0)),
    animateFromScale := none }

/-- A prior state whose current chordId is the empty string (reachable
through the external history seed, whose contents are arbitrary). -/
def emptyIdPrev : ChordGraphState := ⟨⟨"x", "", none⟩, [], []⟩

/-- A live chord message announcing chord C with no suggestions. -/
def msgCOnly : ChordMsg := ⟨⟨some "C", ["C", "E", "G"]⟩, []⟩

/-- The candidate state `transformToChordGraphState` builds from
`msgCOnly` at time 0. -/
def baseCOnly : ChordGraphState := ⟨⟨"current-0", "C", none⟩, [], []⟩

/-- A held state with one history entry, for the null-chord scenario. -/
def heldSt : ChordGraphState :=
  ⟨⟨"c9", "G", none⟩, [⟨"p9", "C", none⟩], []⟩

/-- A chord message whose chord name is `null` (all keys released). -/
def msgNullName : ChordMsg := ⟨⟨none, []⟩, []⟩

/-- An externally seeded state whose previous list has 7 entries —
longer than `MAX_HISTORY` (the seed-hydration path does not truncate). -/
def seededLongSt : ChordGraphState :=
  ⟨⟨"s", "C", none⟩,
   [⟨"s0", "F", none⟩, ⟨"s1", "G", none⟩, ⟨"s2", "Am", none⟩,
    ⟨"s3", "Em", none⟩, ⟨"s4", "Dm", none⟩, ⟨"s5", "B", none⟩,
    ⟨"s6", "E", none⟩], []⟩

/-! ## Structural lemmas about `allNodes` -/

/-- Every entry of the previous-role segment is the image of some index
`m` of the underlying list, rendered with running index `k + m`. -/
lemma mem_buildPrevNodes {st : ChordGraphState} {ps? : Option ChordGraphState} :
    ∀ {l : List ChordNode} {k : ℕ} {r : RenderNode},
      r ∈ buildPrevNodes st ps? k l →
      ∃ m, ∃ hm : m < l.length,
        r = { node := l.get ⟨m, hm⟩, slot := SlotId.prev (k + m),
              role := Role.previous,
              animateFromPosition :=
                (getPrevAnimateFrom st ps? (k + m) (l.get ⟨m, hm⟩).chordId).1,
              animateFromScale :=
                (getPrevAnimateFrom st ps? (k + m) (l.get ⟨m, hm⟩).chordId).2 } := by
  intro l
  induction l with
  | nil => intro k r hr; simp [buildPrevNodes] at hr
  | cons n rest ih =>
    intro k r hr
    rw [buildPrevNodes] at hr
    rcases List.mem_cons.mp hr with h | h
    · exact ⟨0, Nat.succ_pos _, by simpa using h⟩
    · obtain ⟨m, hm, hr'⟩ := ih h
      refine ⟨m + 1, Nat.succ_lt_succ hm, ?_⟩
      simpa [Nat.add_assoc, Nat.add_comm 1 m] using hr'

/-- Next-role entries never carry an animation directive. -/
lemma mem_buildNextNodes :
    ∀ {l : List ChordNode} {k : ℕ} {r : RenderNode}, r ∈ buildNextNodes k l →
      r.role = Role.next ∧ r.animateFromPosition = none ∧
        r.animateFromScale = none := by
  intro l
  induction l with
  | nil => intro k r hr; simp [buildNextNodes] at hr
  | cons n rest ih =>
    intro k r hr
    rw [buildNextNodes] at hr
    rcases List.mem_cons.mp hr with h | h
    · subst h; exact ⟨rfl, rfl, rfl⟩
    · exact ih h

/-- The current-role entry of `allNodes` is unique and carries
`promotedInitialPosition` and no scale directive. -/
lemma allNodes_current_char {st : ChordGraphState} {ps? : Option ChordGraphState}
    {r : RenderNode} (hr : r ∈ allNodes st ps?) (hrole : r.role = Role.current) :
    r = { node := st.current, slot := SlotId.center, role := Role.current,
          animateFromPosition := promotedInitialPosition st ps?,
          animateFromScale := none } := by
  rw [allNodes] at hr
  rcases List.mem_append.mp hr with h | h
  · rcases List.mem_append.mp h with h' | h'
    · obtain ⟨m, hm, hrr⟩ := mem_buildPrevNodes h'
      rw [hrr] at hrole; cases hrole
    · simpa using h'
  · obtain ⟨hrole', -, -⟩ := mem_buildNextNodes h
    rw [hrole'] at hrole; cases hrole

/-- An `allNodes` entry whose slot is `prev-i` is exactly the rendering
of `previous.slice(0, MAX_HISTORY)[i]`. -/
lemma allNodes_prev_char {st : ChordGraphState} {ps? : Option ChordGraphState}
    {r : RenderNode} {i : ℕ} (hr : r ∈ allNodes st ps?)
    (hslot : r.slot = SlotId.prev i) :
    ∃ hi : i < (st.previous.take MAX_HISTORY).length,
      r = { node := (st.previous.take MAX_HISTORY).get ⟨i, hi⟩,
            slot := SlotId.prev i, role := Role.previous,
            animateFromPosition :=
              (getPrevAnimateFrom st ps? i
                ((st.previous.take MAX_HISTORY).get ⟨i, hi⟩).chordId).1,
            animateFromScale :=
              (getPrevAnimateFrom st ps? i
                ((st.previous.take MAX_HISTORY).get ⟨i, hi⟩).chordId).2 } := by
  rw [allNodes] at hr
  rcases List.mem_append.mp hr with h | h
  · rcases List.mem_append.mp h with h' | h'
    · obtain ⟨m, hm, hrr⟩ := mem_buildPrevNodes h'
      have hmi : m = i := by
        rw [hrr] at hslot
        simpa using hslot
      subst hmi
      exact ⟨hm, by simpa using hrr⟩
    · have hc : r.slot = SlotId.center := by
        have := List.mem_singleton.mp h'
        rw [this]
      rw [hc] at hslot; cases hslot
  · exfalso
    revert hslot
    have hnx : ∀ {l : List ChordNode} {k : ℕ}, r ∈ buildNextNodes k l →
        r.slot ≠ SlotId.prev i := by
      intro l
      induction l with
      | nil => intro k hmem; simp [buildNextNodes] at hmem
      | cons n rest ih =>
        intro k hmem
        rw [buildNextNodes] at hmem
        rcases List.mem_cons.mp hmem with hh | hh
        · subst hh; intro hc; cases hc
        · exact ih hh
    exact fun hslot => hnx h hslot

/-- `findIndex` returns the first index whose element satisfies the
predicate; as a by-product, `some` is true there. -/
lemma findIdx_eq_of_first {α : Type _} (p : α → Bool) :
    ∀ (l : List α) (i : ℕ) (hi : i < l.length),
      p (l.get ⟨i, hi⟩) = true → (∀ x ∈ l.take i, p x = false) →
      l.findIdx p = i ∧ l.any p = true := by
  intro l
  induction l with
  | nil => intro i hi; simp at hi
  | cons a t ih =>
    intro i hi hp hbefore
    cases i with
    | zero =>
      simp at hp
      constructor
      · simp [List.findIdx_cons, hp]
      · simp [hp]
    | succ i =>
      have ha : p a = false := hbefore a (by simp [List.take_succ_cons])
      have hi' : i < t.length := Nat.lt_of_succ_lt_succ hi
      have hp' : p (t.get ⟨i, hi'⟩) = true := by simpa using hp
      have hbefore' : ∀ x ∈ t.take i, p x = false := by
        intro x hx
        exact hbefore x (by simp [List.take_succ_cons, hx])
      obtain ⟨hfi, hany⟩ := ih i hi' hp' hbefore'
      constructor
      · simp [List.findIdx_cons, ha, hfi]
      · simp [hany]

/-- With no previous snapshot, `getPrevAnimateFrom` yields no directive. -/
lemma getPrevAnimateFrom_none (st : ChordGraphState) (i : ℕ) (c : String) :
    getPrevAnimateFrom st none i c = (none, none) := by
  simp [getPrevAnimateFrom, demotedFromCenter]

/-- C7: with `prevSnapshot = null`, the resolver emits no
animation-origin directive — neither `animateFromPosition` nor
`animateFromScale` — for any node of the rendered state: not for the
current node, not for any previous entry, not for any next entry. -/
theorem seeded_no_motion (st : ChordGraphState) :
    ∀ r ∈ allNodes st none,
      r.animateFromPosition = none ∧ r.animateFromScale = none := by
  intro r hr
  rw [allNodes] at hr
  rcases List.mem_append.mp hr with h | h
  · rcases List.mem_append.mp h with h' | h'
    · obtain ⟨m, hm, hrr⟩ := mem_buildPrevNodes h'
      rw [hrr]
      simp [getPrevAnimateFrom_none]
    · have := List.mem_singleton.mp h'
      rw [this]
      simp [promotedInitialPosition, promotedFrom]
  · obtain ⟨-, h1, h2⟩ := mem_buildNextNodes h
    exact ⟨h1, h2⟩

/-- Witness for C7 at a concrete seeded state with a previous entry, a
current node and a suggestion. -/
theorem seeded_no_motion_witness :
    ({ node := ⟨"d6-c", "F", none⟩, slot := SlotId.center,
       role := Role.current, animateFromPosition := none,
       animateFromScale := none } : RenderNode).animateFromPosition = none ∧
    ({ node := ⟨"d6-c", "F", none⟩, slot := SlotId.center,
       role := Role.current, animateFromPosition := none,
       animateFromScale := none } : RenderNode).animateFromScale = none :=
  seeded_no_motion
    ⟨⟨"d6-c", "F", none⟩, [⟨"d6-p0", "C", none⟩], [⟨"d6-n0", "G", none⟩]⟩
    { node := ⟨"d6-c", "F", none⟩, slot := SlotId.center,
      role := Role.current, animateFromPosition := none,
      animateFromScale := none }
    (by decide)

/-- C2: promotion rule of the transition resolver.  For every new state
and non-null previous snapshot: (1) if the current chordId changed and
`i` is the lowest index of `prevSnapshot.next` holding that chordId,
the current node's animation origin is the absolute position of slot
`next-i` and its effective starting scale is 1 (no scale override);
(2) if no entry of `prevSnapshot.next` matches, the current node
receives no animation origin at all. -/
theorem promotion_rule (st ps : ChordGraphState) :
    (∀ (i : ℕ) (hi : i < ps.next.length),
        st.current.chordId ≠ ps.current.chordId →
        (ps.next.get ⟨i, hi⟩).chordId = st.current.chordId →
        (∀ n ∈ ps.next.take i, n.chordId ≠ st.current.chordId) →
        ∀ r ∈ allNodes st (some ps), r.role = Role.current →
          r.animateFromPosition = some (getAbsPos (SlotId.next i)) ∧
            initialScale r = 1)
    ∧ ((∀ n ∈ ps.next, n.chordId ≠ st.current.chordId) →
        ∀ r ∈ allNodes st (some ps), r.role = Role.current →
          r.animateFromPosition = none ∧ r.animateFromScale = none) := by
  constructor
  · intro i hi hne hmatch hbefore r hr hrole
    have hrr := allNodes_current_char hr hrole
    have hp : (fun n : ChordNode => n.chordId == st.current.chordId)
        (ps.next.get ⟨i, hi⟩) = true := by simpa using hmatch
    have hbefore' : ∀ x ∈ ps.next.take i,
        (fun n : ChordNode => n.chordId == st.current.chordId) x = false := by
      intro x hx
      simpa using hbefore x hx
    obtain ⟨hfi, hany⟩ :=
      findIdx_eq_of_first (fun n : ChordNode => n.chordId == st.current.chordId)
        ps.next i hi hp hbefore'
    have hpf : promotedFrom st (some ps) = some i := by
      rw [promotedFrom, if_pos ⟨hne, hany⟩, hfi]
    rw [hrr]
    constructor
    · simp [promotedInitialPosition, hpf]
    · simp [initialScale]
  · intro hnomatch r hr hrole
    have hrr := allNodes_current_char hr hrole
    have hany : ps.next.any
        (fun n : ChordNode => n.chordId == st.current.chordId) = false := by
      rw [List.any_eq_false]
      intro x hx
      simpa using hnomatch x hx
    have hpf : promotedFrom st (some ps) = none := by
      rw [promotedFrom, if_neg]
      intro hc
      rw [hany] at hc
      exact Bool.false_ne_true hc.2
    rw [hrr]
    constructor
    · simp [promotedInitialPosition, hpf]
    · rfl

/-- Witness for C2 at the spec's own example:
`prevSnapshot.next = [G7, Dm7]`, new current `Dm7` — origin is slot
`next-1`, effective scale 1. -/
theorem promotion_rule_witness :
    ({ node := ⟨"c1", "Dm7", none⟩, slot := SlotId.center,
       role := Role.current,
       animateFromPosition := some (getAbsPos (SlotId.next 1)),
       animateFromScale := none } : RenderNode).animateFromPosition =
        some (getAbsPos (SlotId.next 1)) ∧
    initialScale
      { node := ⟨"c1", "Dm7", none⟩, slot := SlotId.center,
        role := Role.current,
        animateFromPosition := some (getAbsPos (SlotId.next 1)),
        animateFromScale := none } = 1 :=
  (promotion_rule
      ⟨⟨"c1", "Dm7", none⟩, [], []⟩
      ⟨⟨"c0", "C", none⟩, [], [⟨"n0", "G7", none⟩, ⟨"n1", "Dm7", none⟩]⟩).1
    1 (by decide) (by decide) (by decide) (by decide)
    { node := ⟨"c1", "Dm7", none⟩, slot := SlotId.center,
      role := Role.current,
      animateFromPosition := some (getAbsPos (SlotId.next 1)),
      animateFromScale := none }
    (by decide) (by decide)

/-- Counterexample to C3 as stated: at a concrete demotion (C → F, C
demoted into `previous[0]`), the resolver's scale directive is
`55 / 32 ≈ 1.719` — `currentRadius / previousRadius` — not the claimed
`previousRadius / currentRadius ≈ 0.582`. -/
theorem demotion_scale_counterexample :
    (allNodes demoSt (some demoPs)).head? = some demoPrev0 ∧
    demoSt.previous.head? = some ⟨"q0", "C", none⟩ ∧
    demoPs.current.chordId = "C" ∧
    demoPrev0.animateFromScale = some ((55 : ℚ) / 32) ∧
    ¬ demoPrev0.animateFromScale =
        some (roleRadius Role.previous / roleRadius Role.current) := by
  refine ⟨rfl, rfl, rfl, rfl, ?_⟩
  intro h
  rw [show demoPrev0.animateFromScale = some ((55 : ℚ) / 32) from rfl] at h
  rw [Option.some_inj] at h
  rw [show roleRadius Role.previous / roleRadius Role.current
        = (32 : ℚ) / 55 from rfl] at h
  norm_num at h

/-- C3 as amended: for every new state and non-null snapshot with
`previous[0].chordId = prevSnapshot.current.chordId`, the `prev-0`
node's animation origin is the center slot's absolute position with a
scale ratio of `currentRadius / previousRadius` (55 / 32 ≈ 1.719): the
node starts at the current-role sphere size and shrinks down to the
previous-role size. -/
theorem demotion_rule (st ps : ChordGraphState) (p0 : ChordNode)
    (h0 : st.previous.head? = some p0)
    (hid : p0.chordId = ps.current.chordId) :
    ∀ r ∈ allNodes st (some ps), r.slot = SlotId.prev 0 →
      r.animateFromPosition = some (getAbsPos SlotId.center) ∧
        r.animateFromScale =
          some (roleRadius Role.current / roleRadius Role.previous) := by
  intro r hr hslot
  obtain ⟨hi, hrr⟩ := allNodes_prev_char hr hslot
  have hdem : demotedFromCenter st (some ps) = true := by
    rw [demotedFromCenter]
    cases hprev : st.previous with
    | nil => rw [hprev] at h0; cases h0
    | cons q rest =>
      rw [hprev] at h0
      have : q = p0 := by simpa using h0
      subst this
      simpa using hid
  have hgp : ∀ c, getPrevAnimateFrom st (some ps) 0 c =
      (some (getAbsPos SlotId.center),
        some (roleRadius Role.current / roleRadius Role.previous)) := by
    intro c
    rw [getPrevAnimateFrom, if_pos ⟨rfl, hdem⟩]
    rfl
  rw [hrr]
  refine ⟨?_, ?_⟩
  · show (getPrevAnimateFrom st (some ps) 0
      ((st.previous.take MAX_HISTORY).get ⟨0, hi⟩).chordId).1 = _
    rw [hgp]
  · show (getPrevAnimateFrom st (some ps) 0
      ((st.previous.take MAX_HISTORY).get ⟨0, hi⟩).chordId).2 = _
    rw [hgp]

/-- Witness for the amended C3 at the concrete demotion scenario. -/
theorem demotion_rule_witness :
    demoPrev0.animateFromPosition = some (getAbsPos SlotId.center) ∧
    demoPrev0.animateFromScale =
      some (roleRadius Role.current / roleRadius Role.previous) :=
  demotion_rule demoSt demoPs ⟨"q0", "C", none⟩ rfl rfl demoPrev0
    (List.Mem.head _) rfl

/-- C6: shift rule of the transition resolver.  For a rendered
`previous[i]` node that is not a demoted `previous[0]`:
(1) if its chordId first occurs in `prevSnapshot.previous` at index
`j ≠ i`, its animation origin is the absolute position of slot `prev-j`
with no scale override; (2) if its chordId does not occur in
`prevSnapshot.previous` at all, it gets no directive; (3) if the first
occurrence is at index `i` itself, it gets no directive. -/
theorem shift_rule (st ps : ChordGraphState) (i : ℕ)
    (hi : i < (st.previous.take MAX_HISTORY).length)
    (hnd : ¬(i = 0 ∧ demotedFromCenter st (some ps) = true)) :
    ∀ r ∈ allNodes st (some ps), r.slot = SlotId.prev i →
      ((∀ (j : ℕ) (hj : j < ps.previous.length),
          (ps.previous.get ⟨j, hj⟩).chordId
              = ((st.previous.take MAX_HISTORY).get ⟨i, hi⟩).chordId →
          (∀ n ∈ ps.previous.take j,
            n.chordId ≠ ((st.previous.take MAX_HISTORY).get ⟨i, hi⟩).chordId) →
          j ≠ i →
          r.animateFromPosition = some (getAbsPos (SlotId.prev j)) ∧
            r.animateFromScale = none)
        ∧ ((∀ n ∈ ps.previous,
            n.chordId ≠ ((st.previous.take MAX_HISTORY).get ⟨i, hi⟩).chordId) →
          r.animateFromPosition = none ∧ r.animateFromScale = none)
        ∧ (∀ hj : i < ps.previous.length,
          (ps.previous.get ⟨i, hj⟩).chordId
              = ((st.previous.take MAX_HISTORY).get ⟨i, hi⟩).chordId →
          (∀ n ∈ ps.previous.take i,
            n.chordId ≠ ((st.previous.take MAX_HISTORY).get ⟨i, hi⟩).chordId) →
          r.animateFromPosition = none ∧ r.animateFromScale = none)) := by
  intro r hr hslot
  obtain ⟨hi', hrr⟩ := allNodes_prev_char hr hslot
  have hnodes : (st.previous.take MAX_HISTORY).get ⟨i, hi'⟩
      = (st.previous.take MAX_HISTORY).get ⟨i, hi⟩ := rfl
  rw [hrr, hnodes]
  set c := ((st.previous.take MAX_HISTORY).get ⟨i, hi⟩).chordId with hc
  refine ⟨?_, ?_, ?_⟩
  · intro j hj hmatch hbefore hji
    have hp : (fun n : ChordNode => n.chordId == c)
        (ps.previous.get ⟨j, hj⟩) = true := by simpa using hmatch
    have hb : ∀ x ∈ ps.previous.take j,
        (fun n : ChordNode => n.chordId == c) x = false := by
      intro x hx; simpa using hbefore x hx
    obtain ⟨hfi, hany⟩ :=
      findIdx_eq_of_first (fun n : ChordNode => n.chordId == c)
        ps.previous j hj hp hb
    have hgp : getPrevAnimateFrom st (some ps) i c
        = (some (getAbsPos (SlotId.prev j)), none) := by
      rw [getPrevAnimateFrom, if_neg hnd]
      simp only [hany, if_true, hfi]
      rw [if_pos hji]
    exact ⟨congrArg Prod.fst hgp, congrArg Prod.snd hgp⟩
  · intro hnone
    have hany : ps.previous.any (fun n : ChordNode => n.chordId == c)
        = false := by
      rw [List.any_eq_false]
      intro x hx; simpa using hnone x hx
    have hgp : getPrevAnimateFrom st (some ps) i c = (none, none) := by
      rw [getPrevAnimateFrom, if_neg hnd]
      simp only [hany]
      simp
    exact ⟨congrArg Prod.fst hgp, congrArg Prod.snd hgp⟩
  · intro hj hmatch hbefore
    have hp : (fun n : ChordNode => n.chordId == c)
        (ps.previous.get ⟨i, hj⟩) = true := by simpa using hmatch
    have hb : ∀ x ∈ ps.previous.take i,
        (fun n : ChordNode => n.chordId == c) x = false := by
      intro x hx; simpa using hbefore x hx
    obtain ⟨hfi, hany⟩ :=
      findIdx_eq_of_first (fun n : ChordNode => n.chordId == c)
        ps.previous i hj hp hb
    have hgp : getPrevAnimateFrom st (some ps) i c = (none, none) := by
      rw [getPrevAnimateFrom, if_neg hnd]
      simp only [hany, if_true, hfi]
      simp
    exact ⟨congrArg Prod.fst hgp, congrArg Prod.snd hgp⟩

/-- Witness for C6: with `prevSnapshot.previous = [Am, Em]` and new
`previous = [C, Am, Em]`, the `prev-1` node (Am) slides in from slot
`prev-0`, with no scale override. -/
theorem shift_rule_witness :
    shiftPrev1.animateFromPosition = some (getAbsPos (SlotId.prev 0)) ∧
    shiftPrev1.animateFromScale = none :=
  (shift_rule shiftSt shiftPs 1 (by decide) (by decide) shiftPrev1
      (List.Mem.tail _ (List.Mem.head _)) rfl).1
    0 (by decide) rfl (by decide) (by decide)

/-- The previous-role segment renders exactly one entry per node. -/
lemma buildPrevNodes_length (st : ChordGraphState) (ps? : Option ChordGraphState) :
    ∀ (l : List ChordNode) (k : ℕ), (buildPrevNodes st ps? k l).length = l.length := by
  intro l
  induction l with
  | nil => intro k; rfl
  | cons n rest ih => intro k; simp [buildPrevNodes, ih]

/-- No next-role entry has role `previous`. -/
lemma filter_buildNextNodes :
    ∀ (l : List ChordNode) (k : ℕ),
      (buildNextNodes k l).filter (fun r => r.role == Role.previous) = [] := by
  intro l
  induction l with
  | nil => intro k; rfl
  | cons n rest ih => intro k; simp [buildNextNodes, ih]

/-- C10: the node list built for rendering contains at most
`MAX_HISTORY` previous-role nodes — even for an externally seeded state
whose previous list is longer than `MAX_HISTORY` — and every previous
slot index carried by a rendered node is below `MAX_HISTORY`, i.e. a
real key of the slot table `prev-0 .. prev-4`. -/
theorem render_truncation (st : ChordGraphState) (ps? : Option ChordGraphState) :
    ((allNodes st ps?).filter (fun r => r.role == Role.previous)).length
        ≤ MAX_HISTORY
    ∧ ∀ r ∈ allNodes st ps?, ∀ i : ℕ, r.slot = SlotId.prev i →
        i < MAX_HISTORY ∧ (SLOT_POSITIONS (SlotId.prev i)).isSome = true := by
  constructor
  · rw [allNodes, List.filter_append, List.filter_append,
      filter_buildNextNodes]
    have hmid : List.filter (fun r : RenderNode => r.role == Role.previous)
        [{ node := st.current, slot := SlotId.center, role := Role.current,
           animateFromPosition := promotedInitialPosition st ps?,
           animateFromScale := none }] = ([] : List RenderNode) := rfl
    rw [hmid]
    calc ((buildPrevNodes st ps? 0 (st.previous.take MAX_HISTORY)).filter
            (fun r : RenderNode => r.role == Role.previous) ++ [] ++ []).length
        ≤ (buildPrevNodes st ps? 0 (st.previous.take MAX_HISTORY)).length := by
          simp [List.length_filter_le]
      _ = (st.previous.take MAX_HISTORY).length := buildPrevNodes_length _ _ _ _
      _ ≤ MAX_HISTORY := by simp
  · intro r hr i hslot
    obtain ⟨hi, -⟩ := allNodes_prev_char hr hslot
    have hlen : i < MAX_HISTORY :=
      lt_of_lt_of_le hi (by simp)
    refine ⟨hlen, ?_⟩
    have h5 : i < 5 := hlen
    interval_cases i <;> rfl

/-- Witness for C10 at a seeded state whose previous list holds 7
entries: the render list still has at most 5 previous nodes, and its
`prev-4` entry stays inside the slot table. -/
theorem render_truncation_witness :
    ((allNodes seededLongSt none).filter
        (fun r => r.role == Role.previous)).length ≤ MAX_HISTORY
    ∧ (4 < MAX_HISTORY ∧ (SLOT_POSITIONS (SlotId.prev 4)).isSome = true) :=
  ⟨(render_truncation seededLongSt none).1,
    (render_truncation seededLongSt none).2
      { node := ⟨"s4", "Dm", none⟩, slot := SlotId.prev 4,
        role := Role.previous, animateFromPosition := none,
        animateFromScale := none }
      (by decide) 4 rfl⟩

/-- Counterexample to C4 as stated: with a held state carrying history,
an inbound chord event whose chord name is `null` leaves the store's
state exactly as it was — it does not become `null`, and the previous
history is retained, because the `if (baseState && ...)` guard skips
the whole update. -/
theorem null_chord_counterexample :
    msgNullName.chord.name = none ∧
    handleChordMsg (some heldSt) msgNullName 0 false = some heldSt ∧
    heldSt.previous ≠ [] := by
  refine ⟨rfl, rfl, ?_⟩
  decide

/-- C4 as amended: when an inbound chord event's chord name is `null`,
the candidate state is `null` and the store update is skipped entirely:
the held state — previous history included — is left unchanged (it is
not reset to the absent state). -/
theorem null_chord_keeps_state (st? : Option ChordGraphState) (msg : ChordMsg)
    (now : ℕ) (demo : Bool) (h : msg.chord.name = none) :
    handleChordMsg st? msg now demo = st? := by
  rw [handleChordMsg]
  simp only [transformToChordGraphState, h]

/-- Witness for the amended C4 at a concrete held state. -/
theorem null_chord_keeps_state_witness :
    handleChordMsg (some heldSt) msgNullName 3 false = some heldSt :=
  null_chord_keeps_state (some heldSt) msgNullName 3 false rfl

/-- `(mergeChordGraphState (some prev) base now).previous` written out. -/
lemma mergeChordGraphState_previous (prev base : ChordGraphState) (now : ℕ) :
    (mergeChordGraphState (some prev) base now).previous =
      if base.current.chordId ≠ "" ∧ prev.current.chordId ≠ "" ∧
          base.current.chordId ≠ prev.current.chordId then
        ({ id := "prev-" ++ toString now, chordId := prev.current.chordId,
           probability := none } :: prev.previous).take MAX_HISTORY
      else prev.previous := rfl

/-- Counterexample to C1 as stated: against a prior state whose current
chordId is the empty string, an incoming chord event for "C" (a
different chordId) leaves `previous` unchanged and empty — the merge's
truthiness guard treats the empty prior chordId as "no change" — while
the claim demands the one-element prepend-and-truncate list. -/
theorem merge_previous_counterexample :
    transformToChordGraphState msgCOnly 0 = some baseCOnly ∧
    baseCOnly.current.chordId ≠ emptyIdPrev.current.chordId ∧
    (mergeChordGraphState (some emptyIdPrev) baseCOnly 0).previous = [] ∧
    (({ id := "prev-0", chordId := emptyIdPrev.current.chordId,
        probability := none } : ChordNode)
        :: emptyIdPrev.previous).take MAX_HISTORY
      = [{ id := "prev-0", chordId := "", probability := none }] := by
  refine ⟨?_, ?_, ?_, ?_⟩ <;> decide

/-- C1 as amended: for every non-null prior state whose current chordId
is nonempty and every incoming chord event (its chordId is nonempty by
construction), if the incoming chordId differs from the prior current
chordId the resulting previous list is a fresh-id node carrying the
outgoing current chordId prepended to the old previous list and
truncated to `MAX_HISTORY`; if the chordIds are equal, the previous
list is returned unchanged. -/
theorem merge_previous_rule (prev base : ChordGraphState) (now : ℕ)
    (hbase : base.current.chordId ≠ "") (hprev : prev.current.chordId ≠ "") :
    (base.current.chordId ≠ prev.current.chordId →
      (mergeChordGraphState (some prev) base now).previous =
        ({ id := "prev-" ++ toString now, chordId := prev.current.chordId,
           probability := none } :: prev.previous).take MAX_HISTORY)
    ∧ (base.current.chordId = prev.current.chordId →
      (mergeChordGraphState (some prev) base now).previous = prev.previous) := by
  constructor
  · intro hne
    rw [mergeChordGraphState_previous, if_pos ⟨hbase, hprev, hne⟩]
  · intro heq
    rw [mergeChordGraphState_previous, if_neg (fun hc => hc.2.2 heq)]

/-- Witness for the amended C1: a C → F change prepends a fresh node for
C onto the old history. -/
theorem merge_previous_rule_witness :
    (mergeChordGraphState (some demoPs)
        ⟨⟨"current-1", "F", none⟩, [], []⟩ 1).previous =
      ({ id := "prev-1", chordId := demoPs.current.chordId,
         probability := none } :: demoPs.previous).take MAX_HISTORY :=
  (merge_previous_rule demoPs ⟨⟨"current-1", "F", none⟩, [], []⟩ 1
      (by decide) (by decide)).1 (by decide)

/-- A candidate state built by `transformToChordGraphState` always has
an empty previous list. -/
lemma transform_previous_nil (msg : ChordMsg) (now : ℕ)
    (base : ChordGraphState)
    (h : transformToChordGraphState msg now = some base) :
    base.previous = [] := by
  rw [transformToChordGraphState] at h
  split at h
  · cases h
  · split at h
    · cases h
    · obtain rfl := Option.some_inj.mp h
      rfl

/-- One store update preserves the history bound. -/
lemma handleChordMsg_previous_bound (st? : Option ChordGraphState)
    (msg : ChordMsg) (now : ℕ)
    (hinv : ∀ t, st? = some t → t.previous.length ≤ MAX_HISTORY) :
    ∀ t, handleChordMsg st? msg now false = some t →
      t.previous.length ≤ MAX_HISTORY := by
  intro t ht
  rw [handleChordMsg] at ht
  cases htr : transformToChordGraphState msg now with
  | none => rw [htr] at ht; exact hinv t ht
  | some base =>
    rw [htr] at ht
    have ht2 : (if (false : Bool) = true then st?
        else some (mergeChordGraphState st? base now)) = some t := ht
    rw [if_neg (by simp)] at ht2
    obtain rfl := Option.some_inj.mp ht2.symm
    cases st? with
    | none =>
      have : mergeChordGraphState none base now = base := rfl
      rw [this, transform_previous_nil msg now base htr]
      exact Nat.zero_le _
    | some prev =>
      rw [mergeChordGraphState_previous]
      by_cases hch : base.current.chordId ≠ "" ∧ prev.current.chordId ≠ "" ∧
          base.current.chordId ≠ prev.current.chordId
      · rw [if_pos hch]
        simp
      · rw [if_neg hch]
        exact hinv prev rfl

/-- C5: for every sequence of chord events applied through the store's
merge starting from the absent state, `previous.length ≤ MAX_HISTORY`
holds after each update (every prefix of a longer run is itself such a
sequence). -/
theorem history_bound (msgs : List (ChordMsg × ℕ)) (s : ChordGraphState)
    (h : runChordMsgs msgs = some s) : s.previous.length ≤ MAX_HISTORY := by
  have key : ∀ (rest : List (ChordMsg × ℕ)) (st? : Option ChordGraphState),
      (∀ t, st? = some t → t.previous.length ≤ MAX_HISTORY) →
      ∀ u, rest.foldl (fun st m => handleChordMsg st m.1 m.2 false) st? = some u →
        u.previous.length ≤ MAX_HISTORY := by
    intro rest
    induction rest with
    | nil => intro st? hinv u hu; exact hinv u hu
    | cons m tail ih =>
      intro st? hinv u hu
      rw [List.foldl_cons] at hu
      exact ih _ (handleChordMsg_previous_bound st? m.1 m.2 hinv) u hu
  exact key msgs none (fun t ht => by cases ht) s h

/-- Witness for C5 on the one-event run C. -/
theorem history_bound_witness : baseCOnly.previous.length ≤ MAX_HISTORY :=
  history_bound [(msgCOnly, 0)] baseCOnly (by decide)

/-- C8: the colour resolver is a pure function of the normalised (flats
collapsed to sharps) parsed root: any two chord identifiers with the
same normalised root — in particular the same identifier twice, or two
enharmonically equal flat/sharp spellings — receive the identical
four-token colour identity. -/
theorem color_identity (a b : String)
    (h : normalizeRoot (parseChord a).root = normalizeRoot (parseChord b).root) :
    getChordColor a = getChordColor b := by
  rw [getChordColor, getChordColor, h]

/-- Witness for C8 at the spec's enharmonic pair Db7 / C#maj. -/
theorem color_identity_witness : getChordColor "Db7" = getChordColor "C#maj" :=
  color_identity "Db7" "C#maj" (by decide)

/-- Counterexample to C9 as stated: the resolver maps the unparseable
empty identifier to the colour set of root C (the `parseChord` fallback
root), which is not the neutral `DEFAULT_COLORS` identity the claim
names. -/
theorem unparseable_default_counterexample :
    getChordColor "" ≠ DEFAULT_COLORS ∧
    getChordColor "" = getChordColor "C" := by
  refine ⟨?_, rfl⟩
  decide

/-- C9 as amended: every chord identifier that does not begin with a
note letter A–G (the empty string included) resolves, totally and
without failure, to the colour identity of root C — the fallback root
of `parseChord` — not to the neutral `DEFAULT_COLORS` identity.
(`DEFAULT_COLORS` itself is returned only for parseable roots that the
colour table lacks, such as `B#` or `E#`.) -/
theorem unparseable_fallback (s : String)
    (h : ∀ c, s.toList.head? = some c → isNoteLetter c = false) :
    getChordColor s = getChordColor "C" := by
  have hpc : parseChordChars s.toList = none := by
    cases hl : s.toList with
    | nil => rfl
    | cons c rest =>
      have hc := h c (by rw [hl]; rfl)
      simp [parseChordChars, hc]
  have hparse : parseChord s = ⟨"C", ""⟩ := by
    rw [parseChord, hpc]
  rw [getChordColor, hparse]
  rfl

/-- Witness for the amended C9 at the empty identifier. -/
theorem unparseable_fallback_witness :
    getChordColor "" = getChordColor "C" :=
  unparseable_fallback "" (by intro c hc; simp at hc)

end JassApp
